import Mathlib

/-!
Verification of the Job Builder / Job Runner logic of `video_compressor.py`
(class `VideoCompressorApp`).

Shallow embedding conventions:
* Python `float` arithmetic on parsed timestamps and durations is modelled by
  exact rational arithmetic (`ℚ`); the values involved are small decimals.
* Python exceptions (`IndexError` from `[...]`, `ValueError` from `float`/`int`
  and tuple unpacking, `KeyError` from a dict lookup) are modelled by
  `Except PyErr`.
* Python string operations are modelled by structurally recursive functions on
  `List Char` (via `String.data`), so that every definition evaluates inside
  the kernel.
* Tk `StringVar`/`IntVar` fields are modelled as plain `String`/`ℤ` fields of
  records; the ffmpeg subprocess and its probe facility are modelled as
  parameters (an environment `String → Option ℚ` giving, for an input path,
  the duration of its video stream, or `none` when the probe finds no video
  stream).
-/

/-- The Python exception kinds raised by the modelled code paths. -/
inductive PyErr
  | indexError
  | valueError
  | keyError
  deriving DecidableEq

instance {ε α : Type} [DecidableEq ε] [DecidableEq α] : DecidableEq (Except ε α)
  | .error a, .error b =>
    if h : a = b then .isTrue (by rw [h]) else .isFalse (by intro hc; cases hc; exact h rfl)
  | .error _, .ok _ => .isFalse (by intro hc; cases hc)
  | .ok _, .error _ => .isFalse (by intro hc; cases hc)
  | .ok a, .ok b =>
    if h : a = b then .isTrue (by rw [h]) else .isFalse (by intro hc; cases hc; exact h rfl)

/-- `sub` occurs as a contiguous substring of `l` (Python's `sub in line`,
for the non-empty markers checked on line 528). -/
def containsSub (sub : List Char) : List Char → Bool
  | [] => sub.isPrefixOf ([] : List Char)
  | c :: rest => sub.isPrefixOf (c :: rest) || containsSub sub rest

/-- Python `sub in line` for strings. -/
def hasSubstr (line sub : String) : Bool :=
  containsSub sub.data line.data

/-- Line 528: `"frame=" in line and "time=" in line and "bitrate=" in line`. -/
def isProgressLine (line : String) : Bool :=
  hasSubstr line "frame=" && hasSubstr line "time=" && hasSubstr line "bitrate="

/-- The characters after the first occurrence of `sep` in `l`; `none` when
`sep` does not occur. -/
def afterFirstSep (sep : List Char) : List Char → Option (List Char)
  | [] => none
  | c :: rest =>
      if sep.isPrefixOf (c :: rest) then some ((c :: rest).drop sep.length)
      else afterFirstSep sep rest

/-- The characters of `l` before the next occurrence of `sep` (all of `l`
when `sep` does not occur). -/
def upToNextSep (sep : List Char) : List Char → List Char
  | [] => []
  | c :: rest =>
      if sep.isPrefixOf (c :: rest) then []
      else c :: upToNextSep sep rest

/-- Python `line.split(sep)[1]` for a non-empty separator: the segment
strictly between the first occurrence of `sep` and the following occurrence
(or the end of the string). `none` where Python raises `IndexError` (no
occurrence at all). -/
def splitSegmentOne (sep : List Char) (l : List Char) : Option (List Char) :=
  (afterFirstSep sep l).map (upToNextSep sep)

/-- Split on every occurrence of a single separator character, keeping empty
segments — Python `s.split(':')`. -/
def splitOnChar (sep : Char) : List Char → List (List Char)
  | [] => [[]]
  | c :: rest =>
      if c = sep then [] :: splitOnChar sep rest
      else
        match splitOnChar sep rest with
        | [] => [[c]]
        | p :: ps => (c :: p) :: ps

/-- Split on maximal whitespace runs, discarding empty tokens — Python
`s.split()` with no argument. -/
def pySplitWs (l : List Char) : List (List Char) :=
  (splitOnChar ' ' (l.map fun c => if c.isWhitespace then ' ' else c)).filter
    (fun t => t ≠ [])

/-- Numeric value of a digit string (base-10 accumulation; an empty list
contributes 0, as the integer part of `float(".5")` does). -/
def natValDigits (l : List Char) : ℕ :=
  l.foldl (fun n c => n * 10 + (c.toNat - 48)) 0

/-- Strip leading whitespace. -/
def dropLeadingWs : List Char → List Char
  | [] => []
  | c :: rest => if c.isWhitespace then dropLeadingWs rest else c :: rest

/-- Strip surrounding whitespace (Python `float` ignores it). -/
def trimWs (l : List Char) : List Char :=
  ((dropLeadingWs (dropLeadingWs l.reverse).reverse))

/-- The syntactic shape of a finite decimal literal accepted by Python
`float(s)`: optional sign, digits with at most one `.`, at least one digit
overall. -/
structure FloatLit where
  neg : Bool
  intPart : List Char
  fracPart : List Char
  deriving DecidableEq

/-- Recognise the decimal literals that Python `float(s)` accepts (after
stripping surrounding whitespace). `inf`, `nan` and exponent forms are not
modelled; they do not occur in `HH:MM:SS[.fraction]` timestamps. Returns
`none` where `float` raises `ValueError`. -/
def readFloatLit (l : List Char) : Option FloatLit :=
  let t := trimWs l
  let neg : Bool := match t.head? with | some '-' => true | _ => false
  let signed : Bool := match t.head? with | some '-' => true | some '+' => true | _ => false
  let u := if signed then t.drop 1 else t
  match splitOnChar '.' u with
  | [i] =>
      if i ≠ [] && i.all Char.isDigit then some ⟨neg, i, []⟩ else none
  | [i, f] =>
      if (i ≠ [] || f ≠ []) && i.all Char.isDigit && f.all Char.isDigit then
        some ⟨neg, i, f⟩
      else none
  | _ => none

/-- The rational value of a decimal literal. -/
def floatLitVal (f : FloatLit) : ℚ :=
  (if f.neg then -1 else 1) *
    ((natValDigits f.intPart : ℚ) + (natValDigits f.fracPart : ℚ) / 10 ^ f.fracPart.length)

/-- Models Python `float(s)` on finite decimal literals, as an exact
rational. -/
def parseFloatQ (l : List Char) : Option ℚ :=
  (readFloatLit l).map floatLitVal

/-- Lines 530–532: `time_str.split(':')` unpacked into exactly three floats
(`hours, minutes, seconds = map(float, ...)`; any other arity or a failed
`float` raises `ValueError`), then `hours*3600 + minutes*60 + seconds`. -/
def parseHMS (timeStr : String) : Option ℚ :=
  match (splitOnChar ':' timeStr.data).mapM readFloatLit with
  | some [h, m, s] => some (floatLitVal h * 3600 + floatLitVal m * 60 + floatLitVal s)
  | _ => none

/-- Line 530: `line.split("time=")[1].split()[0]` — the text between the
first `time=` marker and the following one, cut at the first whitespace.
Each `[...]` on an out-of-range index raises `IndexError`. -/
def extractTimeStr (line : String) : Except PyErr String :=
  match splitSegmentOne "time=".data line.data with
  | none => .error .indexError
  | some rest =>
      match (pySplitWs rest).head? with
      | none => .error .indexError
      | some tok => .ok (String.mk tok)

/-- Lines 526–547, `parse_ffmpeg_output(line)`.

`probeEnv inputFile` models lines 535–537: `ffmpeg.probe` of the *current*
value of `self.input_file` followed by the video-stream search — `none` when
no video stream is found, `some d` for a stream whose `duration` field reads
`d` (`0` when the field is absent). The returned pair is
(progress value written to `self.progress`, if any;
 line inserted verbatim into the log widget, if any). -/
def parseFfmpegOutput (probeEnv : String → Option ℚ) (inputFile : String)
    (line : String) : Except PyErr (Option ℚ × Option String) :=
  if isProgressLine line then
    match extractTimeStr line with
    | .error e => .error e
    | .ok timeStr =>
        match parseHMS timeStr with
        | none => .error .valueError
        | some totalSeconds =>
            let upd : Option ℚ :=
              match probeEnv inputFile with
              | some duration =>
                  if 0 < duration then
                    some (min (totalSeconds / duration * 100) 100)
                  else none
              | none => none
            .ok (upd, some line)
  else .ok (none, none)

/-- Python `int(s)`: optional surrounding whitespace, optional sign, decimal
digits (underscore separators are not modelled; they cannot be typed into a
bitrate field meaningfully). Returns `none` where `int` raises
`ValueError`. -/
def pythonInt (s : String) : Option ℤ :=
  match trimWs s.data with
  | '-' :: rest =>
      if rest ≠ [] && rest.all Char.isDigit then some (-(natValDigits rest : ℤ)) else none
  | '+' :: rest =>
      if rest ≠ [] && rest.all Char.isDigit then some (natValDigits rest : ℤ) else none
  | t => if t ≠ [] && t.all Char.isDigit then some (natValDigits t : ℤ) else none

/-- The user-chosen settings, one field per Tk variable of
`VideoCompressorApp.__init__` (lines 27–32): `compression_level` is an
`IntVar`, the rest are `StringVar`s — in particular `bitrate` is the free
text of an entry widget, with `"0"` meaning auto. -/
structure Options where
  compressionLevel : ℤ
  outputFormat : String
  preset : String
  bitrate : String
  resolution : String
  fps : String
  deriving DecidableEq

/-- The `resolution_map` dict, lines 421–429; `none` models a `KeyError` on
lookup of a label that is not a key. -/
def resolutionMap : String → Option String
  | "2160p (4K)" => some "3840x2160"
  | "1440p (QHD)" => some "2560x1440"
  | "1080p (Full HD)" => some "1920x1080"
  | "720p (HD)" => some "1280x720"
  | "480p (SD)" => some "854x480"
  | "360p" => some "640x360"
  | "240p" => some "426x240"
  | _ => none

/-- Lines 419–430: the scale filter appended to `video_filters` — present
when the resolution is not `"Original"`; a label outside `resolution_map`
raises `KeyError` at line 430. -/
def scaleStep (o : Options) : Except PyErr (List String) :=
  if o.resolution ≠ "Original" then
    match resolutionMap o.resolution with
    | some wh => .ok ["scale=" ++ wh]
    | none => .error .keyError
  else .ok []

/-- Lines 417–434: the full `video_filters` list — the scale filter, then an
fps filter when the frame rate is not `"Original"`. -/
def buildVideoFilters (o : Options) : Except PyErr (List String) :=
  (scaleStep o).map fun fs =>
    if o.fps ≠ "Original" then fs ++ ["fps=" ++ o.fps] else fs

/-- The `output_args` dict of `compress_video`, one field per key (the
`nostats`/`hide_banner` flags, both constant `None`, are not modelled).
`maxrateVal`/`bufsizeVal` hold the numeric values computed on lines 457–458
(`int(bitrate) * 1.5` and `int(bitrate) * 2`) before their `f"{...}k"`
formatting. -/
structure OutputArgs where
  cv : String
  crf : String
  preset : String
  movflags : String
  progressArg : String
  loglevel : String
  bv : Option String
  maxrateVal : Option ℚ
  bufsizeVal : Option ℤ
  ca : String
  ba : String
  deriving DecidableEq

/-- Lines 443–452: the base `output_args` dict. The `c:a`/`b:a` keys do not
exist before line 460; the empty-string initial values below are never
observable (always overwritten by `containerStep`). -/
def baseOutputArgs (o : Options) : OutputArgs :=
  { cv := "libx264", crf := toString o.compressionLevel, preset := o.preset,
    movflags := "+faststart", progressArg := "-", loglevel := "info",
    bv := none, maxrateVal := none, bufsizeVal := none, ca := "", ba := "" }

/-- Lines 454–458: bitrate control is added when the bitrate text is not the
exact string `"0"`; `int()` on a non-numeric text raises `ValueError`. The
maxrate value is `int(bitrate) * 1.5` and the buffer size
`int(bitrate) * 2`. -/
def bitrateStep (o : Options) (args : OutputArgs) : Except PyErr OutputArgs :=
  if o.bitrate ≠ "0" then
    match pythonInt o.bitrate with
    | some b =>
        .ok { args with bv := some (o.bitrate ++ "k"),
                        maxrateVal := some ((b : ℚ) * (3 / 2)),
                        bufsizeVal := some (b * 2) }
    | none => .error .valueError
  else .ok args

/-- Lines 460–470: the audio settings (`c:a = aac`, `b:a = 128k`) followed
by the container-dependent codec overrides for `webm` and `avi`. -/
def containerStep (o : Options) (a : OutputArgs) : OutputArgs :=
  let a2 := { a with ca := "aac", ba := "128k" }
  if o.outputFormat = "webm" then { a2 with cv := "libvpx-vp9", ca := "libopus" }
  else if o.outputFormat = "avi" then { a2 with cv := "libxvid", ca := "libmp3lame" }
  else a2

/-- Lines 442–470: build the complete `output_args` dict. -/
def buildOutputArgs (o : Options) : Except PyErr OutputArgs :=
  (bitrateStep o (baseOutputArgs o)).map (containerStep o)

/-- The pure argument-building part of `compress_video` (lines 417–470), in
source order: filters first, then output args. Any `.error` here is raised
before `run_async` (line 477) can spawn the ffmpeg subprocess. -/
def buildJob (o : Options) : Except PyErr (List String × OutputArgs) :=
  match buildVideoFilters o with
  | .error e => .error e
  | .ok fs => (buildOutputArgs o).map fun a => (fs, a)

/-- Lines 570–575, the `log` method: the line inserted into the log widget
for a message, with the Runner's own `[HH:MM:SS]` timestamp prefixed. -/
def logLine (ts msg : String) : String :=
  "[" ++ ts ++ "] " ++ msg ++ "\n"

/-- The mutable application state touched by the Runner methods: the Tk
variables of `__init__` plus the `is_processing` flag and the
`ffmpeg_process` handle (modelled as a presence bit). -/
structure AppState where
  inputFile : String
  outputFile : String
  isProcessing : Bool
  progressVar : ℚ
  statusText : String
  logLines : List String
  hasProcess : Bool
  deriving DecidableEq

/-- What `start_compression` does before (or instead of) spawning the worker
thread: an error dialog, a silent early return, or a started job. -/
inductive StartOutcome
  | errorDialog (msg : String)
  | ignored
  | started
  deriving DecidableEq

/-- Lines 372–397, `start_compression`: empty input/output paths show an
error dialog; a request while `is_processing` is true returns silently
(line 382–383); otherwise the state is reset and the worker thread starts. -/
def startCompression (s : AppState) : StartOutcome × AppState :=
  if s.inputFile = "" then (.errorDialog "Please select an input video file", s)
  else if s.outputFile = "" then (.errorDialog "Please select an output file", s)
  else if s.isProcessing then (.ignored, s)
  else (.started,
    { s with isProcessing := true, progressVar := 0,
             statusText := "Compressing...", logLines := [] })

/-- The observable subprocess actions of one `cancel_compression` call. -/
structure CancelEffect where
  terminated : Bool
  waitTimeout : ℕ
  killed : Bool
  deriving DecidableEq

/-- Lines 555–568, `cancel_compression`: when no ffmpeg process is attached
the whole body is skipped (a no-op); otherwise `terminate()` is sent, the
process is awaited for up to 5 seconds, a `TimeoutExpired` leads to
`kill()`, and in either path the state becomes `Cancelled`.
`exitsInGrace` is the environment's choice of whether the process exits
within the grace period. -/
def cancelCompression (ts : String) (exitsInGrace : Bool) (s : AppState) :
    AppState × CancelEffect :=
  if s.hasProcess then
    ({ s with isProcessing := false,
              statusText := "Cancelled",
              logLines := s.logLines ++ [logLine ts "\nCompression cancelled by user"] },
     { terminated := true, waitTimeout := 5, killed := !exitsInGrace })
  else (s, { terminated := false, waitTimeout := 0, killed := false })

/-- Lines 489–524: what the worker thread of `compress_video` does after its
read loop sees end-of-stream — `process.wait()` returns `returncode`, the
zero/non-zero branch runs (the success branch additionally logs file-size
statistics and shows a dialog; the failure branch shows an error dialog),
and the `finally` clause clears `is_processing` and `ffmpeg_process`. This
runs on the worker thread even when the loop ended because
`cancel_compression` terminated the process. -/
def readerFinish (ts : String) (returncode : ℤ) (s : AppState) : AppState :=
  let s1 :=
    if returncode = 0 then
      { s with logLines := s.logLines ++ [logLine ts "\nCompression completed successfully!"],
               statusText := "Compression completed" }
    else
      { s with logLines := s.logLines ++ [logLine ts "\nCompression failed!"],
               statusText := "Compression failed" }
  { s1 with isProcessing := false, hasProcess := false }

/-- A representative ffmpeg progress line at elapsed time 10 s. -/
def cLine10 : String :=
  "frame=  240 fps= 30 q=28.0 size=    1024kB time=00:00:10.00 bitrate=1000.0kbits/s speed=1x"

/-- A representative ffmpeg progress line at elapsed time 100 s. -/
def cLine100 : String :=
  "frame= 2400 fps= 30 q=28.0 size=   10240kB time=00:01:40.00 bitrate=1000.0kbits/s speed=1x"

/-- An environment in which the probed file changes mid-job: path `a.mp4`
has duration 100, any other path 20. -/
def reprobeEnv : String → Option ℚ :=
  fun f => if f = "a.mp4" then some 100 else some 20

/-- Options for a webm job with auto bitrate. -/
def webmOpts : Options :=
  { compressionLevel := 30, outputFormat := "webm", preset := "fast",
    bitrate := "0", resolution := "Original", fps := "Original" }

/-- The args `compress_video` builds for `webmOpts`. -/
def webmArgs : OutputArgs :=
  { cv := "libvpx-vp9", crf := "30", preset := "fast", movflags := "+faststart",
    progressArg := "-", loglevel := "info", bv := none, maxrateVal := none,
    bufsizeVal := none, ca := "libopus", ba := "128k" }

/-- Options for a 1000 kbps mp4 job. -/
def brOpts : Options :=
  { compressionLevel := 23, outputFormat := "mp4", preset := "medium",
    bitrate := "1000", resolution := "Original", fps := "Original" }

/-- The args `compress_video` builds for `brOpts`. -/
def brArgs : OutputArgs :=
  { cv := "libx264", crf := "23", preset := "medium", movflags := "+faststart",
    progressArg := "-", loglevel := "info", bv := some "1000k",
    maxrateVal := some (((1000 : ℤ) : ℚ) * (3 / 2)), bufsizeVal := some 2000,
    ca := "aac", ba := "128k" }

/-- Options with quality 60, outside [0, 51], and every other field valid. -/
def badQualityOpts : Options :=
  { compressionLevel := 60, outputFormat := "mp4", preset := "medium",
    bitrate := "0", resolution := "Original", fps := "Original" }

/-- A state in which a job is running: paths chosen, `is_processing` set,
ffmpeg process attached. -/
def busyState : AppState :=
  { inputFile := "a.mp4", outputFile := "out.mp4", isProcessing := true,
    progressVar := 0, statusText := "Compressing...", logLines := [],
    hasProcess := true }

theorem parseHMS_eval10 : parseHMS "00:00:10.00" = some 10 := by
  have h : (splitOnChar ':' "00:00:10.00".data).mapM readFloatLit =
      some [⟨false, ['0','0'], []⟩, ⟨false, ['0','0'], []⟩, ⟨false, ['1','0'], ['0','0']⟩] := by
    decide
  have h0 : natValDigits ['0','0'] = 0 := by decide
  have h1 : natValDigits ['1','0'] = 10 := by decide
  have hn : natValDigits ([] : List Char) = 0 := by decide
  simp only [parseHMS, h]
  norm_num [floatLitVal, h0, h1, hn]

theorem parseHMS_eval100 : parseHMS "00:01:40.00" = some 100 := by
  have h : (splitOnChar ':' "00:01:40.00".data).mapM readFloatLit =
      some [⟨false, ['0','0'], []⟩, ⟨false, ['0','1'], []⟩, ⟨false, ['4','0'], ['0','0']⟩] := by
    decide
  have h0 : natValDigits ['0','0'] = 0 := by decide
  have h1 : natValDigits ['0','1'] = 1 := by decide
  have h4 : natValDigits ['4','0'] = 40 := by decide
  have hn : natValDigits ([] : List Char) = 0 := by decide
  simp only [parseHMS, h]
  norm_num [floatLitVal, h0, h1, h4, hn]

/-- Evaluation helper: the result of `parse_ffmpeg_output` on a progress line
whose timestamp parses, when the probed duration is positive. -/
theorem parseFfmpegOutput_progress (env : String → Option ℚ) (file line timeStr : String)
    (e d : ℚ) (hp : isProgressLine line = true) (ht : extractTimeStr line = .ok timeStr)
    (he : parseHMS timeStr = some e) (hd : env file = some d) (hdpos : 0 < d) :
    parseFfmpegOutput env file line = .ok (some (min (e / d * 100) 100), some line) := by
  simp only [parseFfmpegOutput, hp, ht, he, hd, if_true, hdpos]

theorem exceptMap_ok {ε α β : Type} (f : α → β) (x : α) :
    (Except.ok x : Except ε α).map f = .ok (f x) := rfl

theorem exceptMap_isOk {ε α β : Type} (f : α → β) (x : Except ε α) :
    (x.map f).isOk = x.isOk := by cases x <;> rfl

theorem bitrateStep_zero (o : Options) (args : OutputArgs) (h : o.bitrate = "0") :
    bitrateStep o args = .ok args := by
  unfold bitrateStep
  rw [if_neg (not_not_intro h)]

theorem bitrateStep_some (o : Options) (args : OutputArgs) (b : ℤ)
    (hne : o.bitrate ≠ "0") (hpi : pythonInt o.bitrate = some b) :
    bitrateStep o args =
      .ok { args with bv := some (o.bitrate ++ "k"),
                      maxrateVal := some ((b : ℚ) * (3 / 2)),
                      bufsizeVal := some (b * 2) } := by
  unfold bitrateStep
  rw [if_pos hne, hpi]

theorem bitrateStep_ok_fields (o : Options) (args r : OutputArgs)
    (h : bitrateStep o args = .ok r) :
    r.cv = args.cv ∧ r.crf = args.crf ∧ r.preset = args.preset ∧
    r.movflags = args.movflags ∧ r.ba = args.ba := by
  unfold bitrateStep at h
  by_cases hbz : o.bitrate = "0"
  · rw [if_neg (not_not_intro hbz)] at h
    injection h with h
    subst h
    exact ⟨rfl, rfl, rfl, rfl, rfl⟩
  · rw [if_pos hbz] at h
    cases hpi : pythonInt o.bitrate with
    | none => rw [hpi] at h; exact Except.noConfusion h
    | some b =>
        rw [hpi] at h
        injection h with h
        subst h
        exact ⟨rfl, rfl, rfl, rfl, rfl⟩

theorem containerStep_ba (o : Options) (a : OutputArgs) :
    (containerStep o a).ba = "128k" := by
  simp only [containerStep]
  split
  · rfl
  · split <;> rfl

theorem containerStep_movflags (o : Options) (a : OutputArgs) :
    (containerStep o a).movflags = a.movflags := by
  simp only [containerStep]
  split
  · rfl
  · split <;> rfl

theorem containerStep_bv (o : Options) (a : OutputArgs) :
    (containerStep o a).bv = a.bv := by
  simp only [containerStep]
  split
  · rfl
  · split <;> rfl

theorem containerStep_maxrateVal (o : Options) (a : OutputArgs) :
    (containerStep o a).maxrateVal = a.maxrateVal := by
  simp only [containerStep]
  split
  · rfl
  · split <;> rfl

theorem containerStep_bufsizeVal (o : Options) (a : OutputArgs) :
    (containerStep o a).bufsizeVal = a.bufsizeVal := by
  simp only [containerStep]
  split
  · rfl
  · split <;> rfl

theorem containerStep_cv (o : Options) (a : OutputArgs) :
    (containerStep o a).cv =
      (if o.outputFormat = "webm" then "libvpx-vp9"
       else if o.outputFormat = "avi" then "libxvid" else a.cv) := by
  simp only [containerStep]
  split
  · rfl
  · split <;> rfl

theorem containerStep_ca (o : Options) (a : OutputArgs) :
    (containerStep o a).ca =
      (if o.outputFormat = "webm" then "libopus"
       else if o.outputFormat = "avi" then "libmp3lame" else "aac") := by
  simp only [containerStep]
  split
  · rfl
  · split <;> rfl

theorem scaleStep_isOk (o : Options) :
    (scaleStep o).isOk =
      (o.resolution == "Original" || (resolutionMap o.resolution).isSome) := by
  unfold scaleStep
  by_cases hr : o.resolution = "Original"
  · rw [if_neg (not_not_intro hr), hr]
    rfl
  · rw [if_pos hr]
    cases hm : resolutionMap o.resolution with
    | none =>
        rw [beq_eq_false_iff_ne.mpr hr]
        rfl
    | some wh =>
        rw [Option.isSome_some, Bool.or_true]
        rfl

theorem bitrateStep_isOk (o : Options) (args : OutputArgs) :
    (bitrateStep o args).isOk =
      (o.bitrate == "0" || (pythonInt o.bitrate).isSome) := by
  unfold bitrateStep
  by_cases hbz : o.bitrate = "0"
  · rw [if_neg (not_not_intro hbz), hbz]
    rfl
  · rw [if_pos hbz]
    cases hpi : pythonInt o.bitrate with
    | none =>
        rw [beq_eq_false_iff_ne.mpr hbz]
        rfl
    | some b =>
        rw [Option.isSome_some, Bool.or_true]
        rfl

/-- C1: for every recognised progress line whose timestamp parses to elapsed
seconds `e`, and every probed duration `d > 0`, the reported progress equals
`min(100, 100·e/d)`; it never exceeds 100, and for `e > d` it is clamped to
exactly 100. -/
theorem progress_percent_formula (env : String → Option ℚ) (file line timeStr : String)
    (e d : ℚ) (hp : isProgressLine line = true) (ht : extractTimeStr line = .ok timeStr)
    (he : parseHMS timeStr = some e) (hd : env file = some d) (hdpos : 0 < d) :
    parseFfmpegOutput env file line = .ok (some (min 100 (100 * e / d)), some line) ∧
    min 100 (100 * e / d) ≤ 100 ∧ (d < e → min 100 (100 * e / d) = 100) := by
  have hmin : min (e / d * 100) 100 = min 100 (100 * e / d) := by
    rw [min_comm, div_mul_eq_mul_div, mul_comm]
  refine ⟨?_, min_le_left _ _, ?_⟩
  · have h := parseFfmpegOutput_progress env file line timeStr e d hp ht he hd hdpos
    rw [h, hmin]
  · intro hde
    have h1 : (1 : ℚ) < e / d := (one_lt_div hdpos).mpr hde
    have h2 : (100 : ℚ) ≤ 100 * e / d := by
      rw [mul_div_assoc]; nlinarith
    exact min_eq_left h2

/-- Witness for C1: duration 100 with `time=00:00:10.00` reports 10; with
`time=00:01:40.00` reports 100; duration 20 with elapsed 100 clamps to
exactly 100. -/
theorem progress_percent_formula_witness :
    parseFfmpegOutput (fun _ => some 100) "in.mp4" cLine10 = .ok (some 10, some cLine10) ∧
    parseFfmpegOutput (fun _ => some 100) "in.mp4" cLine100 = .ok (some 100, some cLine100) ∧
    parseFfmpegOutput (fun _ => some 20) "in.mp4" cLine100 = .ok (some 100, some cLine100) := by
  have h1 := progress_percent_formula (fun _ => some 100) "in.mp4" cLine10 "00:00:10.00"
    10 100 (by decide) (by decide) parseHMS_eval10 rfl (by norm_num)
  have h2 := progress_percent_formula (fun _ => some 100) "in.mp4" cLine100 "00:01:40.00"
    100 100 (by decide) (by decide) parseHMS_eval100 rfl (by norm_num)
  have h3 := progress_percent_formula (fun _ => some 20) "in.mp4" cLine100 "00:01:40.00"
    100 20 (by decide) (by decide) parseHMS_eval100 rfl (by norm_num)
  refine ⟨?_, ?_, ?_⟩
  · rw [h1.1]; norm_num [min_def]
  · rw [h2.1]; norm_num [min_def]
  · rw [h3.1]; norm_num [min_def]

/-- C2 counterexample: a non-progress engine line is not forwarded to the
log at all, against the claim that every line read is forwarded to the log
sink with a timestamp prefix. -/
theorem log_forward_cex :
    parseFfmpegOutput (fun _ => some 100) "in.mp4" "Stream mapping: ..." = .ok (none, none) :=
  rfl

/-- C2 amended: only lines recognised as progress lines are forwarded to the
log widget, verbatim and with no timestamp prefix added; other engine lines
are not forwarded at all. -/
theorem log_forward_only_progress (env : String → Option ℚ) (file line : String)
    (upd : Option ℚ) (lg : Option String)
    (h : parseFfmpegOutput env file line = .ok (upd, lg)) :
    lg = if isProgressLine line then some line else none := by
  cases hp : isProgressLine line
  · simp only [parseFfmpegOutput, hp, Bool.false_eq_true, if_false, Except.ok.injEq,
      Prod.mk.injEq] at h
    simp [hp, ← h.2]
  · rcases hext : extractTimeStr line with e | timeStr
    · simp only [parseFfmpegOutput, hp, if_true, hext] at h
      exact Except.noConfusion h
    · rcases hhms : parseHMS timeStr with _ | e
      · simp only [parseFfmpegOutput, hp, if_true, hext, hhms] at h
        exact Except.noConfusion h
      · simp only [parseFfmpegOutput, hp, if_true, hext, hhms, Except.ok.injEq,
          Prod.mk.injEq] at h
        simp [hp, ← h.2]

/-- Witness for C2's amended claim at a progress line. -/
theorem log_forward_only_progress_witness :
    parseFfmpegOutput (fun _ => some 100) "in.mp4" cLine10 = .ok (some 10, some cLine10) ∧
    (some cLine10 : Option String) = (if isProgressLine cLine10 then some cLine10 else none) := by
  have heval : parseFfmpegOutput (fun _ => some 100) "in.mp4" cLine10
      = .ok (some 10, some cLine10) := by
    have h := parseFfmpegOutput_progress (fun _ => some 100) "in.mp4" cLine10 "00:00:10.00"
      10 100 (by decide) (by decide) parseHMS_eval10 rfl (by norm_num)
    rw [h]; norm_num [min_def]
  exact ⟨heval, log_forward_only_progress _ _ _ _ _ heval⟩

/-- C3 counterexample: quality 60 is outside [0, 51], yet the build succeeds
(no `InvalidOptions` failure exists anywhere): the out-of-range value is
passed straight through as `crf = "60"`. -/
theorem invalid_quality_build_succeeds :
    (buildJob badQualityOpts).isOk = true ∧
    buildJob badQualityOpts =
      .ok ([], { cv := "libx264", crf := "60", preset := "medium",
                 movflags := "+faststart", progressArg := "-", loglevel := "info",
                 bv := none, maxrateVal := none, bufsizeVal := none,
                 ca := "aac", ba := "128k" }) :=
  ⟨rfl, rfl⟩

/-- C3 amended: whether the build fails before the subprocess is spawned
depends only on the resolution label being `"Original"` or in the fixed
table, and on the bitrate text being `"0"` or parseable as an integer — it
never depends on the quality value, preset, frame rate, or container, and
the failures are a generic `KeyError`/`ValueError`, not an
`InvalidOptions`-style validation. -/
theorem build_success_characterization (o : Options) :
    (buildJob o).isOk =
      ((o.resolution == "Original" || (resolutionMap o.resolution).isSome) &&
       (o.bitrate == "0" || (pythonInt o.bitrate).isSome)) := by
  have hbf : (buildVideoFilters o).isOk = (scaleStep o).isOk := by
    unfold buildVideoFilters
    exact exceptMap_isOk _ _
  unfold buildJob
  cases hfs : buildVideoFilters o with
  | error e =>
      have hss : (scaleStep o).isOk = false := by rw [← hbf, hfs]; rfl
      rw [scaleStep_isOk] at hss
      rw [hss, Bool.false_and]
      rfl
  | ok fs =>
      have hss : (scaleStep o).isOk = true := by rw [← hbf, hfs]; rfl
      rw [scaleStep_isOk] at hss
      rw [hss, Bool.true_and]
      show ((buildOutputArgs o).map fun a => (fs, a)).isOk = _
      rw [exceptMap_isOk]
      unfold buildOutputArgs
      rw [exceptMap_isOk]
      exact bitrateStep_isOk o _

/-- C4 counterexample: with a job running, a second start request returns
silently — the outcome is `ignored`, not an `AlreadyRunning` error — and
the state is untouched. -/
theorem second_start_cex :
    startCompression busyState = (StartOutcome.ignored, busyState) ∧
    StartOutcome.ignored ≠ StartOutcome.errorDialog "AlreadyRunning" := by
  refine ⟨rfl, ?_⟩
  intro hc
  cases hc

/-- C4 amended: a start request while `is_processing` is true (with both
paths non-empty) is silently ignored: no error is surfaced and the running
job's state is left entirely unchanged. -/
theorem second_start_silently_ignored (s : AppState)
    (h1 : s.inputFile ≠ "") (h2 : s.outputFile ≠ "") (h3 : s.isProcessing = true) :
    startCompression s = (.ignored, s) := by
  unfold startCompression
  rw [if_neg h1, if_neg h2, if_pos h3]

/-- Witness for C4's amended claim. -/
theorem second_start_silently_ignored_witness :
    startCompression busyState = (.ignored, busyState) :=
  second_start_silently_ignored busyState (by decide) (by decide) rfl

/-- C5 amended: `cancel_compression` with a process attached terminates it,
waits up to 5 seconds, kills it exactly when it did not exit in the grace
period, and in either path sets the status to `Cancelled`; with no process
attached it is a no-op without error. However the worker thread's completion
handler may later overwrite the status — see the counterexample. -/
theorem cancel_transition_spec (ts : String) (g : Bool) (s : AppState) :
    ((cancelCompression ts g s).2.terminated = s.hasProcess) ∧
    ((cancelCompression ts g s).2.waitTimeout = if s.hasProcess then 5 else 0) ∧
    ((cancelCompression ts g s).2.killed = (s.hasProcess && !g)) ∧
    ((cancelCompression ts g s).1.statusText
        = if s.hasProcess then "Cancelled" else s.statusText) ∧
    ((cancelCompression ts g s).1.isProcessing = (!s.hasProcess && s.isProcessing)) ∧
    ((cancelCompression ts g s).1
        = if s.hasProcess then (cancelCompression ts g s).1 else s) := by
  unfold cancelCompression
  cases hp : s.hasProcess <;> simp [hp]

/-- C5 counterexample: after a cancellation (status set to `Cancelled`), the
worker thread's completion handler observes the terminated process's
non-zero exit code and overwrites the status with `Compression failed` — the
terminal reported state is not guaranteed to be `Cancelled`. -/
theorem cancel_overwritten_by_failure_cex :
    ((cancelCompression "12:00:00" true busyState).1.statusText = "Cancelled") ∧
    ((readerFinish "12:00:01" (-15) (cancelCompression "12:00:00" true busyState).1).statusText
        = "Compression failed") ∧
    ("Compression failed" ≠ "Cancelled") := by
  refine ⟨rfl, rfl, ?_⟩
  decide

/-- C6: the codec pair of the built plan is a fixed function of the output
container: webm selects libvpx-vp9 with libopus, avi selects libxvid with
libmp3lame, every other container selects libx264 with aac. -/
theorem codec_pair_by_container (o : Options) (a : OutputArgs)
    (h : buildOutputArgs o = .ok a) :
    a.cv = (if o.outputFormat = "webm" then "libvpx-vp9"
            else if o.outputFormat = "avi" then "libxvid" else "libx264") ∧
    a.ca = (if o.outputFormat = "webm" then "libopus"
            else if o.outputFormat = "avi" then "libmp3lame" else "aac") := by
  unfold buildOutputArgs at h
  cases hb : bitrateStep o (baseOutputArgs o) with
  | error e => rw [hb] at h; exact Except.noConfusion h
  | ok a0 =>
      rw [hb, exceptMap_ok] at h
      injection h with h
      subst h
      obtain ⟨hcv, _, _, _, _⟩ := bitrateStep_ok_fields o _ a0 hb
      constructor
      · rw [containerStep_cv, hcv]; rfl
      · exact containerStep_ca o a0

/-- Witness for C6 at the webm container. -/
theorem codec_pair_by_container_witness :
    buildOutputArgs webmOpts = .ok webmArgs ∧
    webmArgs.cv = (if webmOpts.outputFormat = "webm" then "libvpx-vp9"
                   else if webmOpts.outputFormat = "avi" then "libxvid" else "libx264") ∧
    webmArgs.ca = (if webmOpts.outputFormat = "webm" then "libopus"
                   else if webmOpts.outputFormat = "avi" then "libmp3lame" else "aac") := by
  have h : buildOutputArgs webmOpts = .ok webmArgs := rfl
  exact ⟨h, codec_pair_by_container webmOpts webmArgs h⟩

/-- C7: bitrate text `"0"` omits the rate-control fields entirely; a nonzero
parsed bitrate b sets the video bitrate to b, the maxrate value to 1.5·b and
the buffer-size value to 2·b, with the same fixed multipliers for every
input. -/
theorem bitrate_flag_policy (o : Options) (a : OutputArgs)
    (h : buildOutputArgs o = .ok a) :
    (o.bitrate = "0" → a.bv = none ∧ a.maxrateVal = none ∧ a.bufsizeVal = none) ∧
    (∀ b : ℤ, o.bitrate ≠ "0" → pythonInt o.bitrate = some b →
      a.bv = some (o.bitrate ++ "k") ∧ a.maxrateVal = some ((b : ℚ) * (3 / 2)) ∧
      a.bufsizeVal = some (b * 2)) := by
  unfold buildOutputArgs at h
  cases hb : bitrateStep o (baseOutputArgs o) with
  | error e => rw [hb] at h; exact Except.noConfusion h
  | ok a0 =>
      rw [hb, exceptMap_ok] at h
      injection h with h
      subst h
      constructor
      · intro h0
        rw [bitrateStep_zero o _ h0] at hb
        injection hb with hb
        subst hb
        rw [containerStep_bv, containerStep_maxrateVal, containerStep_bufsizeVal]
        exact ⟨rfl, rfl, rfl⟩
      · intro b hne hpi
        rw [bitrateStep_some o _ b hne hpi] at hb
        injection hb with hb
        subst hb
        rw [containerStep_bv, containerStep_maxrateVal, containerStep_bufsizeVal]
        exact ⟨rfl, rfl, rfl⟩

/-- Witness for C7 at bitrate 1000. -/
theorem bitrate_flag_policy_witness :
    buildOutputArgs brOpts = .ok brArgs ∧
    brOpts.bitrate ≠ "0" ∧ pythonInt brOpts.bitrate = some 1000 ∧
    (brArgs.bv = some (brOpts.bitrate ++ "k") ∧
     brArgs.maxrateVal = some (((1000 : ℤ) : ℚ) * (3 / 2)) ∧
     brArgs.bufsizeVal = some (1000 * 2)) := by
  have h : buildOutputArgs brOpts = .ok brArgs := rfl
  exact ⟨h, by decide, by decide,
    (bitrate_flag_policy brOpts brArgs h).2 1000 (by decide) (by decide)⟩

/-- C8: on a progress line, when the probe finds no video stream or a
non-positive duration, no numeric progress value is produced (the guarded
division is never reached) and only log forwarding occurs. -/
theorem no_progress_when_duration_unknown (env : String → Option ℚ)
    (file line timeStr : String) (e : ℚ)
    (hp : isProgressLine line = true) (ht : extractTimeStr line = .ok timeStr)
    (he : parseHMS timeStr = some e)
    (hd : ∀ d : ℚ, env file = some d → d ≤ 0) :
    parseFfmpegOutput env file line = .ok (none, some line) := by
  simp only [parseFfmpegOutput, hp, ht, he, if_true]
  rcases henv : env file with _ | d
  · rfl
  · have hle := hd d henv
    simp [not_lt.mpr hle]

/-- Witness for C8: a probed duration of 0 yields log forwarding only. -/
theorem no_progress_when_duration_unknown_witness :
    parseFfmpegOutput (fun _ => some 0) "in.mp4" cLine10 = .ok (none, some cLine10) :=
  no_progress_when_duration_unknown (fun _ => some 0) "in.mp4" cLine10 "00:00:10.00" 10
    (by decide) (by decide) parseHMS_eval10
    (by intro d h; injection h with h; rw [← h])

/-- C9 counterexample: the same engine output line reports 10% while the
input-path setting is `a.mp4` (duration 100) but 50% after the setting
changes to `b.mp4` (duration 20) — the duration is re-probed per line, not
captured at launch. -/
theorem progress_reprobe_cex :
    parseFfmpegOutput reprobeEnv "a.mp4" cLine10 = .ok (some 10, some cLine10) ∧
    parseFfmpegOutput reprobeEnv "b.mp4" cLine10 = .ok (some 50, some cLine10) ∧
    (some (10 : ℚ) ≠ some (50 : ℚ)) := by
  have h1 := parseFfmpegOutput_progress reprobeEnv "a.mp4" cLine10 "00:00:10.00"
    10 100 (by decide) (by decide) parseHMS_eval10 rfl (by norm_num)
  have h2 := parseFfmpegOutput_progress reprobeEnv "b.mp4" cLine10 "00:00:10.00"
    10 20 (by decide) (by decide) parseHMS_eval10 rfl (by norm_num)
  refine ⟨?_, ?_, by norm_num⟩
  · rw [h1]; norm_num [min_def]
  · rw [h2]; norm_num [min_def]

/-- C9 amended: the duration entering the percentage is re-probed from the
*current* input-path setting on every progress line; the result depends on
the probe environment and path only through the probed value at call time. -/
theorem progress_depends_only_on_current_probe (env env' : String → Option ℚ)
    (file file' line : String) (h : env file = env' file') :
    parseFfmpegOutput env file line = parseFfmpegOutput env' file' line := by
  unfold parseFfmpegOutput
  rw [h]

/-- Witness for C9's amended claim. -/
theorem progress_depends_only_on_current_probe_witness :
    parseFfmpegOutput (fun _ => some 100) "a.mp4" cLine10 =
      parseFfmpegOutput (fun _ => some 100) "b.mp4" cLine10 :=
  progress_depends_only_on_current_probe _ _ "a.mp4" "b.mp4" cLine10 rfl

/-- C10: every successfully built plan fixes the audio bitrate at 128 kbps
and includes the `+faststart` movflags, for every container, quality,
preset, bitrate, resolution and frame rate. -/
theorem audio_bitrate_and_movflags_fixed (o : Options) (a : OutputArgs)
    (h : buildOutputArgs o = .ok a) :
    a.ba = "128k" ∧ a.movflags = "+faststart" := by
  unfold buildOutputArgs at h
  cases hb : bitrateStep o (baseOutputArgs o) with
  | error e => rw [hb] at h; exact Except.noConfusion h
  | ok a0 =>
      rw [hb, exceptMap_ok] at h
      injection h with h
      subst h
      obtain ⟨_, _, _, hmv, _⟩ := bitrateStep_ok_fields o _ a0 hb
      refine ⟨containerStep_ba o a0, ?_⟩
      rw [containerStep_movflags, hmv]
      rfl

/-- Witness for C10 at a non-mp4 container (webm). -/
theorem audio_bitrate_and_movflags_fixed_witness :
    buildOutputArgs webmOpts = .ok webmArgs ∧
    webmArgs.ba = "128k" ∧ webmArgs.movflags = "+faststart" := by
  have h : buildOutputArgs webmOpts = .ok webmArgs := rfl
  exact ⟨h, audio_bitrate_and_movflags_fixed webmOpts webmArgs h⟩
